import Mathlib

/-!
Verification of the fridge-to-fork core logic.

This file gives a shallow embedding, in Lean 4, of the string-processing,
validation and retry logic of the repository (src/core/shopping_list.py,
src/core/recipe.py, src/client.py, src/yolo_service.py) and proves or
refutes the behavioural claims made about it.

Python strings are modelled as Lean `String`/`List Char`; Python's
`str.lower` is modelled on its ASCII fragment (`pyToLower`), `str.strip`
as removal of leading/trailing ASCII whitespace, and the regular
expressions of the source are translated operation by operation into
structurally recursive Lean functions.
-/

namespace FridgeToFork

/-- ASCII model of Python `str.lower` applied to one character:
uppercase A–Z (code points 65–90) map to the corresponding lowercase
letter, everything else is unchanged. -/
def pyToLower (c : Char) : Char :=
  if h : 65 ≤ c.toNat ∧ c.toNat ≤ 90 then
    ⟨⟨⟨⟨c.toNat + 32, by omega⟩⟩⟩, Or.inl (show c.toNat + 32 < 55296 by omega)⟩
  else c

theorem charExt {a b : Char} (h : a.toNat = b.toNat) : a = b :=
  Char.ext (UInt32.ext h)

theorem pyToLower_toNat (c : Char) :
    (pyToLower c).toNat = if 65 ≤ c.toNat ∧ c.toNat ≤ 90 then c.toNat + 32 else c.toNat := by
  unfold pyToLower
  split
  · rfl
  · rfl

theorem pyToLower_idem (c : Char) : pyToLower (pyToLower c) = pyToLower c := by
  apply charExt
  rw [pyToLower_toNat, pyToLower_toNat]
  split_ifs with h1 h2 <;> omega

/-- Whitespace characters stripped by Python `str.strip()` and matched by
the regex class `\s` (ASCII fragment): space, tab, newline, carriage return,
vertical tab, form feed. -/
def isSpace (c : Char) : Bool :=
  decide (c.toNat = 32 ∨ c.toNat = 9 ∨ c.toNat = 10 ∨ c.toNat = 13 ∨
          c.toNat = 11 ∨ c.toNat = 12)

theorem isSpace_pyToLower (c : Char) : isSpace (pyToLower c) = isSpace c := by
  unfold isSpace
  rw [decide_eq_decide, pyToLower_toNat]
  split_ifs with h <;> omega

theorem pyToLower_space : pyToLower ' ' = ' ' := by decide

/-- Character class of the bullet-stripping regex
`^[-*•\d\.\)\s]+` in `_normalize_ingredient`. -/
def isBullet (c : Char) : Bool :=
  decide (c.toNat = 45 ∨ c.toNat = 42 ∨ c.toNat = 8226 ∨
          (48 ≤ c.toNat ∧ c.toNat ≤ 57) ∨ c.toNat = 46 ∨ c.toNat = 41) || isSpace c

theorem isSpace_isBullet {c : Char} (h : isSpace c = true) : isBullet c = true := by
  unfold isBullet
  rw [h]
  simp

/-- Python `str.lower` on a whole string (ASCII model). -/
def pyLower (l : List Char) : List Char := l.map pyToLower

/-- Removal of trailing whitespace (the right half of Python `str.strip()`). -/
def dropTrailingSpace (l : List Char) : List Char := (l.reverse.dropWhile isSpace).reverse

/-- Python `str.strip()`: remove leading and trailing whitespace. -/
def pyStrip (l : List Char) : List Char := dropTrailingSpace (l.dropWhile isSpace)

/-- Worker for `collapseWs`; the flag records whether the previously
emitted character position was inside a whitespace run. -/
def collapseAux : Bool → List Char → List Char
  | _, [] => []
  | prevSpace, c :: t =>
    if isSpace c then
      if prevSpace then collapseAux true t else ' ' :: collapseAux true t
    else c :: collapseAux false t

/-- Model of `re.sub(r"\s+", " ", s)`: every maximal whitespace run is
replaced by a single space character. -/
def collapseWs (l : List Char) : List Char := collapseAux false l

theorem collapseAux_cons_space_true {a : Char} {t : List Char} (ha : isSpace a = true) :
    collapseAux true (a :: t) = collapseAux true t := by
  conv_lhs => unfold collapseAux
  rw [if_pos ha, if_pos rfl]

theorem collapseAux_cons_space_false {a : Char} {t : List Char} (ha : isSpace a = true) :
    collapseAux false (a :: t) = ' ' :: collapseAux true t := by
  conv_lhs => unfold collapseAux
  rw [if_pos ha, if_neg (by simp)]

theorem collapseAux_cons_nonspace {a : Char} {t : List Char} {b : Bool} (ha : isSpace a = false) :
    collapseAux b (a :: t) = a :: collapseAux false t := by
  conv_lhs => unfold collapseAux
  rw [if_neg (by simp [ha])]

/-- Model of `_normalize_ingredient` from src/core/shopping_list.py
(lines 311–316) and src/core/recipe.py (lines 99–104):
`s.strip().lower()`, then strip one leading run of the bullet class,
then `strip()`, then collapse whitespace runs to single spaces. -/
def normalizeL (l : List Char) : List Char :=
  collapseWs (pyStrip ((pyLower (pyStrip l)).dropWhile isBullet))

/-- String-level wrapper of `normalizeL`. -/
def normalize_ingredient (s : String) : String := ⟨normalizeL s.data⟩

-- ### Generic list lemmas about the building blocks

theorem dropWhile_head_not {α : Type} {p : α → Bool} :
    ∀ {l : List α} {c : α}, (l.dropWhile p).head? = some c → p c = false := by
  intro l
  induction l with
  | nil => intro c h; simp [List.dropWhile] at h
  | cons a t ih =>
    intro c h
    by_cases ha : p a = true
    · rw [List.dropWhile_cons_of_pos ha] at h
      exact ih h
    · rw [List.dropWhile_cons_of_neg ha] at h
      simp at h
      subst h
      simpa using ha

theorem dropWhile_eq_self {α : Type} {p : α → Bool} {l : List α}
    (h : ∀ c, l.head? = some c → p c = false) : l.dropWhile p = l := by
  cases l with
  | nil => rfl
  | cons a t =>
    have := h a (by rfl)
    rw [List.dropWhile_cons_of_neg (by simp [this])]

theorem isPrefix_head {α : Type} {l₁ l₂ : List α} (h : l₁ <+: l₂) {c : α}
    (hc : l₁.head? = some c) : l₂.head? = some c := by
  obtain ⟨t, rfl⟩ := h
  cases l₁ with
  | nil => simp at hc
  | cons a s => simpa using hc

theorem dropTrailingSpace_prefix_self (l : List Char) : dropTrailingSpace l <+: l := by
  unfold dropTrailingSpace
  apply List.reverse_suffix.mp
  rw [List.reverse_reverse]
  exact List.dropWhile_suffix isSpace

theorem dropTrailingSpace_getLast {l : List Char} {c : Char}
    (h : (dropTrailingSpace l).getLast? = some c) : isSpace c = false := by
  have h2 : (dropTrailingSpace l).reverse.head? = some c := by
    rw [List.head?_reverse]
    exact h
  unfold dropTrailingSpace at h2
  rw [List.reverse_reverse] at h2
  exact dropWhile_head_not h2

/-- A list is trimmed when neither end carries whitespace. -/
def Trimmed (l : List Char) : Prop :=
  (∀ c, l.head? = some c → isSpace c = false) ∧
  (∀ c, l.getLast? = some c → isSpace c = false)

theorem pyStrip_trimmed (l : List Char) : Trimmed (pyStrip l) := by
  constructor
  · intro c hc
    have hpre := dropTrailingSpace_prefix_self (l.dropWhile isSpace)
    exact dropWhile_head_not (isPrefix_head hpre hc)
  · intro c hc
    exact dropTrailingSpace_getLast hc

theorem trimmed_pyStrip_eq {l : List Char} (h : Trimmed l) : pyStrip l = l := by
  unfold pyStrip
  rw [dropWhile_eq_self h.1]
  unfold dropTrailingSpace
  rw [dropWhile_eq_self, List.reverse_reverse]
  intro c hc
  rw [List.head?_reverse] at hc
  exact h.2 c hc

theorem pyStrip_idem (l : List Char) : pyStrip (pyStrip l) = pyStrip l :=
  trimmed_pyStrip_eq (pyStrip_trimmed l)

theorem mem_pyStrip {c : Char} {l : List Char} (h : c ∈ pyStrip l) : c ∈ l := by
  unfold pyStrip dropTrailingSpace at h
  rw [List.mem_reverse] at h
  have h2 := (List.dropWhile_sublist isSpace).subset h
  rw [List.mem_reverse] at h2
  exact (List.dropWhile_sublist isSpace).subset h2

-- ### Lemmas about whitespace collapsing

theorem collapseAux_head {l : List Char}
    (h : ∀ c, l.head? = some c → isSpace c = false) (b : Bool) :
    (collapseAux b l).head? = l.head? := by
  cases l with
  | nil => rfl
  | cons a t =>
    have ha := h a rfl
    unfold collapseAux
    rw [ha]
    simp

theorem collapseAux_eq_nil {b : Bool} {l : List Char}
    (h : collapseAux b l = []) : ∀ c ∈ l, isSpace c = true := by
  induction l generalizing b with
  | nil => intro c hc; simp at hc
  | cons a t ih =>
    by_cases ha : isSpace a = true
    · cases b with
      | true =>
        have h2 : collapseAux true t = [] := by
          unfold collapseAux at h
          simpa [ha] using h
        intro c hc
        rcases List.mem_cons.mp hc with rfl | hct
        · exact ha
        · exact ih h2 c hct
      | false =>
        exfalso
        unfold collapseAux at h
        simp [ha] at h
    · exfalso
      unfold collapseAux at h
      simp [ha] at h

theorem getLast?_mem {α : Type} {l : List α} {c : α} (h : l.getLast? = some c) : c ∈ l :=
  List.mem_of_getLast?_eq_some h

theorem collapseAux_getLast :
    ∀ {l : List Char}, (∀ c, l.getLast? = some c → isSpace c = false) → ∀ (b : Bool) (c : Char),
      (collapseAux b l).getLast? = some c → isSpace c = false := by
  intro l
  induction l with
  | nil => intro _ b c hc; simp [collapseAux] at hc
  | cons a t ih =>
    intro h b c hc
    have htail : t ≠ [] → ∀ d, t.getLast? = some d → isSpace d = false := by
      intro hne d hd
      apply h
      cases t with
      | nil => exact absurd rfl hne
      | cons u us => rw [List.getLast?_cons_cons]; exact hd
    by_cases ha : isSpace a = true
    · cases b with
      | true =>
        unfold collapseAux at hc
        rw [if_pos ha, if_pos rfl] at hc
        cases t with
        | nil => simp [collapseAux] at hc
        | cons u us => exact ih (htail (by simp)) true c hc
      | false =>
        unfold collapseAux at hc
        rw [if_pos ha, if_neg (by simp)] at hc
        cases hX : collapseAux true t with
        | nil =>
          rw [hX] at hc
          simp at hc
          subst hc
          exfalso
          have hall := collapseAux_eq_nil hX
          cases t with
          | nil =>
            have := h a (by simp)
            rw [ha] at this
            exact Bool.true_eq_false.mp this
          | cons u us =>
            cases hgl : (u :: us).getLast? with
            | none => simp at hgl
            | some d =>
              have hd1 := htail (by simp) d hgl
              have hd2 := hall d (List.mem_of_getLast?_eq_some hgl)
              rw [hd2] at hd1
              exact Bool.true_eq_false.mp hd1
        | cons y ys =>
          rw [hX, List.getLast?_cons_cons] at hc
          rw [← hX] at hc
          cases t with
          | nil => simp [collapseAux] at hX
          | cons u us => exact ih (htail (by simp)) true c hc
    · unfold collapseAux at hc
      rw [if_neg (by simp [ha])] at hc
      cases hX : collapseAux false t with
      | nil =>
        rw [hX] at hc
        simp at hc
        subst hc
        simpa using ha
      | cons y ys =>
        rw [hX, List.getLast?_cons_cons] at hc
        rw [← hX] at hc
        cases t with
        | nil => simp [collapseAux] at hX
        | cons u us => exact ih (htail (by simp)) false c hc

theorem collapseAux_mem {c : Char} :
    ∀ {l : List Char} {b : Bool}, c ∈ collapseAux b l → c = ' ' ∨ c ∈ l := by
  intro l
  induction l with
  | nil => intro b hc; simp [collapseAux] at hc
  | cons a t ih =>
    intro b hc
    by_cases ha : isSpace a = true
    · cases b with
      | true =>
        unfold collapseAux at hc
        rw [if_pos ha, if_pos rfl] at hc
        rcases ih hc with h | h
        · exact Or.inl h
        · exact Or.inr (List.mem_cons_of_mem a h)
      | false =>
        unfold collapseAux at hc
        rw [if_pos ha, if_neg (by simp)] at hc
        rcases List.mem_cons.mp hc with rfl | hc2
        · exact Or.inl rfl
        · rcases ih hc2 with h | h
          · exact Or.inl h
          · exact Or.inr (List.mem_cons_of_mem a h)
    · unfold collapseAux at hc
      rw [if_neg (by simp [ha])] at hc
      rcases List.mem_cons.mp hc with rfl | hc2
      · exact Or.inr (List.mem_cons_self c t)
      · rcases ih hc2 with h | h
        · exact Or.inl h
        · exact Or.inr (List.mem_cons_of_mem a h)

theorem collapseAux_idem :
    ∀ (l : List Char) (b : Bool), collapseAux b (collapseAux b l) = collapseAux b l := by
  intro l
  induction l with
  | nil => intro b; rfl
  | cons a t ih =>
    intro b
    by_cases ha : isSpace a = true
    · cases b with
      | true =>
        rw [collapseAux_cons_space_true ha]
        exact ih true
      | false =>
        rw [collapseAux_cons_space_false ha,
            collapseAux_cons_space_false (show isSpace ' ' = true by decide), ih true]
    · have ha2 : isSpace a = false := by simpa using ha
      rw [collapseAux_cons_nonspace ha2, collapseAux_cons_nonspace ha2, ih false]

-- ### Character-level fixpoint facts used for idempotence

/-- Every character of the list is a fixed point of the ASCII lowercasing. -/
def LowFix (l : List Char) : Prop := ∀ c ∈ l, pyToLower c = c

theorem lowFix_pyLower (l : List Char) : LowFix (pyLower l) := by
  intro c hc
  obtain ⟨a, _, rfl⟩ := List.mem_map.mp hc
  exact pyToLower_idem a

theorem pyLower_eq_self : ∀ {l : List Char}, LowFix l → pyLower l = l := by
  intro l
  induction l with
  | nil => intro _; rfl
  | cons a t ih =>
    intro h
    unfold pyLower at ih ⊢
    rw [List.map_cons, h a (List.mem_cons_self a t), ih (fun c hc => h c (List.mem_cons_of_mem a hc))]

-- ### Idempotence of the normalizer

theorem normalizeL_trimmed (l : List Char) : Trimmed (normalizeL l) := by
  unfold normalizeL collapseWs
  constructor
  · intro c hc
    rw [collapseAux_head (pyStrip_trimmed _).1 false] at hc
    exact (pyStrip_trimmed _).1 c hc
  · intro c hc
    exact collapseAux_getLast (pyStrip_trimmed _).2 false c hc

theorem normalizeL_lowFix (l : List Char) : LowFix (normalizeL l) := by
  intro c hc
  unfold normalizeL collapseWs at hc
  rcases collapseAux_mem hc with rfl | hc2
  · exact pyToLower_space
  · have hc3 := mem_pyStrip hc2
    have hc4 := (List.dropWhile_sublist isBullet).subset hc3
    exact lowFix_pyLower _ c hc4

theorem head_not_bullet_strip {m : List Char} {c : Char}
    (hc : (pyStrip (m.dropWhile isBullet)).head? = some c) : isBullet c = false := by
  have hq : (m.dropWhile isBullet).dropWhile isSpace = m.dropWhile isBullet := by
    apply dropWhile_eq_self
    intro d hd
    have hb := dropWhile_head_not hd
    cases hs : isSpace d with
    | false => rfl
    | true => rw [isSpace_isBullet hs] at hb; exact absurd hb (by simp)
  unfold pyStrip at hc
  rw [hq] at hc
  exact dropWhile_head_not (isPrefix_head (dropTrailingSpace_prefix_self _) hc)

theorem normalizeL_head_not_bullet {l : List Char} {c : Char}
    (hc : (normalizeL l).head? = some c) : isBullet c = false := by
  unfold normalizeL collapseWs at hc
  rw [collapseAux_head (pyStrip_trimmed _).1 false] at hc
  exact head_not_bullet_strip hc

theorem collapseWs_normalizeL (l : List Char) : collapseWs (normalizeL l) = normalizeL l := by
  unfold normalizeL collapseWs
  exact collapseAux_idem _ false

theorem normalizeL_idem (l : List Char) : normalizeL (normalizeL l) = normalizeL l := by
  have h1 := normalizeL_trimmed l
  have h2 := normalizeL_lowFix l
  show collapseWs (pyStrip ((pyLower (pyStrip (normalizeL l))).dropWhile isBullet)) = normalizeL l
  rw [trimmed_pyStrip_eq h1, pyLower_eq_self h2,
      dropWhile_eq_self (fun c hc => normalizeL_head_not_bullet hc),
      trimmed_pyStrip_eq h1]
  exact collapseWs_normalizeL l

example : normalize_ingredient " - 2 Garlic   Cloves " = "garlic cloves" := by decide

example : normalize_ingredient "" = "" := by decide

/-- C9: normalization is idempotent — for every string s,
`_normalize_ingredient (_normalize_ingredient s) = _normalize_ingredient s`. -/
theorem C9_normalize_idempotent (s : String) :
    normalize_ingredient (normalize_ingredient s) = normalize_ingredient s :=
  congrArg String.mk (normalizeL_idem s.data)

-- ### Lexicographic string order (Python code-point comparison)

/-- Lexicographic comparison of character lists by code point; this is the
order Python `sorted` uses on `str`. -/
def lexLe : List Char → List Char → Bool
  | [], _ => true
  | _ :: _, [] => false
  | a :: as, b :: bs =>
    if a.toNat < b.toNat then true
    else if b.toNat < a.toNat then false
    else lexLe as bs

/-- String order used to model Python `sorted` on strings. -/
def strLe (a b : String) : Prop := lexLe a.data b.data = true

instance : DecidableRel strLe := fun _ _ => inferInstanceAs (Decidable (_ = true))

theorem stringDataExt {a b : String} (h : a.data = b.data) : a = b := by
  cases a
  cases b
  exact congrArg String.mk h

theorem lexLe_refl (a : List Char) : lexLe a a = true := by
  induction a with
  | nil => rfl
  | cons x xs ih =>
    unfold lexLe
    rw [if_neg (by omega), if_neg (by omega)]
    exact ih

theorem lexLe_trans : ∀ {a b c : List Char},
    lexLe a b = true → lexLe b c = true → lexLe a c = true := by
  intro a
  induction a with
  | nil => intro b c _ _; rfl
  | cons x xs ih =>
    intro b c h1 h2
    cases b with
    | nil => simp [lexLe] at h1
    | cons y ys =>
      cases c with
      | nil => simp [lexLe] at h2
      | cons z zs =>
        unfold lexLe at h1 h2 ⊢
        split_ifs at h1 h2 ⊢ <;>
          first
          | rfl
          | omega
          | exact ih h1 h2

theorem lexLe_antisymm : ∀ {a b : List Char},
    lexLe a b = true → lexLe b a = true → a = b := by
  intro a
  induction a with
  | nil =>
    intro b h1 h2
    cases b with
    | nil => rfl
    | cons y ys => simp [lexLe] at h2
  | cons x xs ih =>
    intro b h1 h2
    cases b with
    | nil => simp [lexLe] at h1
    | cons y ys =>
      unfold lexLe at h1 h2
      rcases Nat.lt_trichotomy x.toNat y.toNat with h | h | h
      · rw [if_neg (by omega), if_pos h] at h2
        exact absurd h2 (by simp)
      · rw [if_neg (by omega), if_neg (by omega)] at h1
        rw [if_neg (by omega), if_neg (by omega)] at h2
        rw [ih h1 h2, charExt h]
      · rw [if_pos h] at h1
        rw [if_neg (by omega)] at h1
        exact absurd h1 (by simp)

theorem lexLe_total : ∀ (a b : List Char), lexLe a b = true ∨ lexLe b a = true := by
  intro a
  induction a with
  | nil => intro b; exact Or.inl rfl
  | cons x xs ih =>
    intro b
    cases b with
    | nil => exact Or.inr rfl
    | cons y ys =>
      unfold lexLe
      rcases Nat.lt_trichotomy x.toNat y.toNat with h | h | h
      · left; rw [if_pos h]
      · rcases ih ys with h2 | h2
        · left; rw [if_neg (by omega), if_neg (by omega)]; exact h2
        · right; rw [if_neg (by omega), if_neg (by omega)]; exact h2
      · right; rw [if_pos h]

instance : IsTrans String strLe := ⟨fun _ _ _ => lexLe_trans⟩

instance : IsAntisymm String strLe := ⟨fun _ _ h1 h2 => stringDataExt (lexLe_antisymm h1 h2)⟩

instance : IsTotal String strLe := ⟨fun a b => lexLe_total a.data b.data⟩

instance : IsRefl String strLe := ⟨fun a => lexLe_refl a.data⟩

-- ### The inventory merge (src/client.py)

/-- Model of `item.lower().strip()` as applied inside `merge_ingredients`
(src/client.py line 32). -/
def pyLowerStrip (s : String) : String := ⟨pyStrip (pyLower s.data)⟩

/-- Model of `merge_ingredients` (src/client.py lines 31–33):
`sorted({item.lower().strip() for item in existing + new_items})`.
The Python set comprehension is modelled as `dedup` of the mapped list
(the set has no duplicates and `sorted` makes the order canonical), and
`sorted` as insertion sort by code-point order. -/
def merge_ingredients (existing new_items : List String) : List String :=
  (((existing ++ new_items).map pyLowerStrip).dedup).insertionSort strLe

theorem pyLowerStrip_idem (s : String) : pyLowerStrip (pyLowerStrip s) = pyLowerStrip s := by
  apply stringDataExt
  show pyStrip (pyLower (pyStrip (pyLower s.data))) = pyStrip (pyLower s.data)
  rw [pyLower_eq_self (fun c hc => lowFix_pyLower s.data c (mem_pyStrip hc))]
  exact pyStrip_idem _

theorem mem_merge_ingredients {x : String} {A B : List String} :
    x ∈ merge_ingredients A B ↔ ∃ y, y ∈ A ++ B ∧ pyLowerStrip y = x := by
  unfold merge_ingredients
  rw [(List.perm_insertionSort strLe _).mem_iff, List.mem_dedup, List.mem_map]

theorem merge_ingredients_nodup (A B : List String) : (merge_ingredients A B).Nodup :=
  (List.perm_insertionSort strLe _).nodup_iff.mpr (List.nodup_dedup _)

theorem merge_ingredients_sorted (A B : List String) :
    (merge_ingredients A B).Sorted strLe :=
  List.sorted_insertionSort strLe _

theorem merge_ext {A B C D : List String}
    (h : ∀ x, x ∈ merge_ingredients A B ↔ x ∈ merge_ingredients C D) :
    merge_ingredients A B = merge_ingredients C D :=
  List.eq_of_perm_of_sorted
    ((List.perm_ext_iff_of_nodup (merge_ingredients_nodup A B) (merge_ingredients_nodup C D)).mpr h)
    (merge_ingredients_sorted A B) (merge_ingredients_sorted C D)

/-- C10: the merge is commutative, and re-merging the same increment is a
no-op: `merge(A,B) = merge(B,A)` and `merge(merge(A,B), B) = merge(A,B)`. -/
theorem C10_merge_comm_idem (A B : List String) :
    merge_ingredients A B = merge_ingredients B A ∧
    merge_ingredients (merge_ingredients A B) B = merge_ingredients A B := by
  constructor
  · apply merge_ext
    intro x
    rw [mem_merge_ingredients, mem_merge_ingredients]
    constructor
    · rintro ⟨y, hy, rfl⟩
      rw [List.mem_append] at hy
      exact ⟨y, List.mem_append.mpr hy.symm, rfl⟩
    · rintro ⟨y, hy, rfl⟩
      rw [List.mem_append] at hy
      exact ⟨y, List.mem_append.mpr hy.symm, rfl⟩
  · apply merge_ext
    intro x
    rw [mem_merge_ingredients, mem_merge_ingredients]
    constructor
    · rintro ⟨y, hy, rfl⟩
      rw [List.mem_append] at hy
      rcases hy with hy | hy
      · obtain ⟨z, hz, rfl⟩ := mem_merge_ingredients.mp hy
        exact ⟨z, hz, (pyLowerStrip_idem z).symm⟩
      · exact ⟨y, List.mem_append.mpr (Or.inr hy), rfl⟩
    · rintro ⟨y, hy, rfl⟩
      refine ⟨pyLowerStrip y, List.mem_append.mpr (Or.inl ?_), pyLowerStrip_idem y⟩
      exact mem_merge_ingredients.mpr ⟨y, hy, rfl⟩

/-- The merge operation as claim C5 words it: normalize both inputs with
the §4.1 normalizer (`_normalize_ingredient`), discard elements that
normalize to the empty string, and return the sorted duplicate-free
union by normalized form.  Stated only to be compared with the
implementation `merge_ingredients`. -/
def merge_spec (existing incoming : List String) : List String :=
  (((existing ++ incoming).map normalize_ingredient).filter (fun s => s != "")).dedup.insertionSort strLe

/-- C5 counterexample: `merge_ingredients` only lowercases and trims its
inputs — it does not strip bullet markers and does not discard elements
that normalize to empty.  On `existing = ["- Milk", ""]` the
implementation returns `["", "- milk"]` while the claimed behaviour
would return `["milk"]`. -/
theorem C5_counterexample :
    merge_ingredients ["- Milk", ""] [] = ["", "- milk"] ∧
    merge_spec ["- Milk", ""] [] = ["milk"] ∧
    merge_ingredients ["- Milk", ""] [] ≠ merge_spec ["- Milk", ""] [] := by decide

/-- C5 amended: for all lists `existing` and `incoming`,
`merge_ingredients` returns the lexicographically sorted, duplicate-free
union of both inputs taken by *lowercased-and-trimmed* form
(`item.lower().strip()`), with no bullet stripping, no whitespace-run
collapsing and no discarding of empty strings. -/
theorem C5_merge_lower_strip_union (existing incoming : List String) :
    (merge_ingredients existing incoming).Sorted strLe ∧
    (merge_ingredients existing incoming).Nodup ∧
    ∀ x, x ∈ merge_ingredients existing incoming ↔
      ∃ y, y ∈ existing ++ incoming ∧ pyLowerStrip y = x :=
  ⟨merge_ingredients_sorted existing incoming, merge_ingredients_nodup existing incoming,
    fun _ => mem_merge_ingredients⟩

-- ### Normalized inventory deduplication (src/core/shopping_list.py lines 319–329)

/-- Worker for `dedupe_normalized`; `seen` is the set of already-emitted
normalized names. -/
def dedupeNormAux (seen : List String) : List String → List String
  | [] => []
  | x :: t =>
    let n := normalize_ingredient x
    if n = "" then dedupeNormAux seen t
    else if n ∈ seen then dedupeNormAux seen t
    else n :: dedupeNormAux (n :: seen) t

/-- Model of `_dedupe_normalized`: normalize every item, drop empties,
keep the first occurrence of each normalized name, preserving order. -/
def dedupe_normalized (items : List String) : List String := dedupeNormAux [] items

-- ### Substring containment (Python `in` on strings)

/-- Whether `pat` occurs as a contiguous substring of `l`
(model of Python `pat in s`). -/
def containsSub (pat : List Char) : List Char → Bool
  | [] => pat.isEmpty
  | c :: t => if pat.isPrefixOf (c :: t) then true else containsSub pat t

def strContains (s pat : String) : Bool := containsSub pat.data s.data

-- ### JSON value model

/-- Values produced by `json.loads`: null, booleans, numbers, strings,
arrays and objects (objects as ordered association lists; `json.loads`
yields dicts whose keys are unique).  Numbers are modelled as integers —
the validator only ever inspects the constructor, never the value. -/
inductive JVal where
  | null : JVal
  | bool (b : Bool) : JVal
  | num (n : Int) : JVal
  | str (s : String) : JVal
  | arr (items : List JVal) : JVal
  | obj (fields : List (String × JVal)) : JVal

def objKeys (fields : List (String × JVal)) : List String := fields.map Prod.fst

/-- Python `data[k]` on a dict (first binding of `k`; the validator only
reads keys whose presence the key-set check has already established,
so the `null` default is never observable in validated paths). -/
def getField (fields : List (String × JVal)) (k : String) : JVal :=
  match fields.find? (fun p => p.1 == k) with
  | some p => p.2
  | none => JVal.null

/-- Equality of the key multiset with a required key set, as Python's
`set(data.keys()) != required` test observes it: mutual containment. -/
def keySetEqB (ks req : List String) : Bool :=
  req.all (fun k => ks.contains k) && ks.all (fun k => req.contains k)

def required_top_keys : List String :=
  ["dish", "missing_items", "optional_items", "already_have", "notes"]

def item_required_keys : List String :=
  ["name", "quantity", "unit", "category", "priority", "substitutions"]

/-- The message produced by the top-level key-set check: Python renders
`sorted(required_top_keys)` inside the f-string. -/
def topKeysMsg : String :=
  "Top-level keys must be exactly ['already_have', 'dish', 'missing_items', 'notes', 'optional_items']"

def itemKeysMsg (path : String) : String :=
  path ++ " keys must be exactly ['category', 'name', 'priority', 'quantity', 'substitutions', 'unit']"

/-- Python `isinstance(v, str)`. -/
def isStr : JVal → Bool
  | JVal.str _ => true
  | _ => false

/-- Python `isinstance(v, str) and v.strip()` (a non-empty-after-strip string). -/
def nonEmptyStr : JVal → Bool
  | JVal.str s => !(pyStrip s.data).isEmpty
  | _ => false

/-- Python `v is None or isinstance(v, (int, float))`; `bool` is a
subclass of `int` in Python, so booleans pass this check too. -/
def isNumberOrNull : JVal → Bool
  | JVal.null => true
  | JVal.num _ => true
  | JVal.bool _ => true
  | _ => false

/-- Python `v is None or isinstance(v, str)`. -/
def isStrOrNull : JVal → Bool
  | JVal.null => true
  | JVal.str _ => true
  | _ => false

/-- Python `v in ("must", "nice_to_have")`. -/
def isPriority : JVal → Bool
  | JVal.str s => s == "must" || s == "nice_to_have"
  | _ => false

/-- Python `isinstance(v, list) and all entries are strings`. -/
def isStrList : JVal → Bool
  | JVal.arr xs => xs.all isStr
  | _ => false

def isArr : JVal → Bool
  | JVal.arr _ => true
  | _ => false

/-- The payload of a JSON array (the checks above guarantee the
constructor before this is used). -/
def arrItems : JVal → List JVal
  | JVal.arr xs => xs
  | _ => []

/-- Model of `_validate_item` (src/core/shopping_list.py lines 278–304). -/
def validate_item (item : JVal) (path : String) : Bool × String :=
  match item with
  | JVal.obj fields =>
    if keySetEqB (objKeys fields) item_required_keys = false then (false, itemKeysMsg path)
    else if nonEmptyStr (getField fields "name") = false then
      (false, path ++ ".name must be a non-empty string")
    else if isNumberOrNull (getField fields "quantity") = false then
      (false, path ++ ".quantity must be a number or null")
    else if isStrOrNull (getField fields "unit") = false then
      (false, path ++ ".unit must be a string or null")
    else if nonEmptyStr (getField fields "category") = false then
      (false, path ++ ".category must be a non-empty string")
    else if isPriority (getField fields "priority") = false then
      (false, path ++ ".priority must be \"must\" or \"nice_to_have\"")
    else if isStrList (getField fields "substitutions") = false then
      (false, path ++ ".substitutions must be a list of strings")
    else (true, "ok")
  | _ => (false, path ++ " must be an object")

/-- Python `item.get("name", "")` followed by the string expectations of
`_normalize_ingredient`; in validated paths the name is always a string. -/
def getNameStr (item : JVal) : String :=
  match item with
  | JVal.obj fields =>
    match getField fields "name" with
    | JVal.str s => s
    | _ => ""
  | _ => ""

/-- Message of the inventory-consistency rejection for `missing_items[i]`. -/
def inventoryMsg (k : String) (i : Nat) (name : String) : String :=
  k ++ "[" ++ toString i ++ "].name \"" ++ name ++
    "\" is already in inventory; move it to \"already_have\""

/-- The inner loop of `validate_shopping_list` over one of the two item
lists; `checkInv` records whether the loop key is `missing_items`, the
only key for which the inventory-membership rejection fires. -/
def check_items (k : String) (checkInv : Bool) (invNorm : List String) :
    Nat → List JVal → Option String
  | _, [] => none
  | i, item :: rest =>
    match validate_item item (k ++ "[" ++ toString i ++ "]") with
    | (false, msg) => some msg
    | (true, _) =>
      if checkInv = true ∧ normalize_ingredient (getNameStr item) ∈ invNorm then
        some (inventoryMsg k i (getNameStr item))
      else check_items k checkInv invNorm (i + 1) rest

/-- The loops checking that `already_have` / `notes` entries are strings. -/
def check_strings (k : String) : Nat → List JVal → Option String
  | _, [] => none
  | i, x :: rest =>
    if isStr x = true then check_strings k (i + 1) rest
    else some (k ++ "[" ++ toString i ++ "] must be a string")

/-- Model of `validate_shopping_list` (src/core/shopping_list.py
lines 223–275).  Checks, in source order: exact top-level key set,
`dish` a non-empty string, the four lists being lists, per-item schema
plus the missing-items inventory invariant, and `already_have`/`notes`
being lists of strings.  Returns `(ok, message)`. -/
def validate_shopping_list (data : List (String × JVal)) (inventory : List String) :
    Bool × String :=
  if keySetEqB (objKeys data) required_top_keys = false then (false, topKeysMsg)
  else if nonEmptyStr (getField data "dish") = false then
    (false, "\"dish\" must be a non-empty string")
  else if isArr (getField data "missing_items") = false then
    (false, "\"missing_items\" must be a list")
  else if isArr (getField data "optional_items") = false then
    (false, "\"optional_items\" must be a list")
  else if isArr (getField data "already_have") = false then
    (false, "\"already_have\" must be a list")
  else if isArr (getField data "notes") = false then
    (false, "\"notes\" must be a list")
  else
    match check_items "missing_items" true (dedupe_normalized inventory) 0
        (arrItems (getField data "missing_items")) with
    | some msg => (false, msg)
    | none =>
      match check_items "optional_items" false (dedupe_normalized inventory) 0
          (arrItems (getField data "optional_items")) with
      | some msg => (false, msg)
      | none =>
        match check_strings "already_have" 0 (arrItems (getField data "already_have")) with
        | some msg => (false, msg)
        | none =>
          match check_strings "notes" 0 (arrItems (getField data "notes")) with
          | some msg => (false, msg)
          | none => (true, "ok")

/-- C7: any candidate whose top-level key set differs from the required
five keys is rejected immediately with the key-set message — no other
check runs — and that message names `notes`. -/
theorem C7_top_level_keys (data : List (String × JVal)) (inventory : List String)
    (h : keySetEqB (objKeys data) required_top_keys = false) :
    validate_shopping_list data inventory = (false, topKeysMsg) ∧
    strContains topKeysMsg "notes" = true := by
  constructor
  · unfold validate_shopping_list
    rw [if_pos h]
  · decide

/-- C7 witness: a concrete object missing the `notes` key is rejected
with the key-set message. -/
theorem C7_witness :
    keySetEqB
      (objKeys [("dish", JVal.str "pasta"), ("missing_items", JVal.arr []),
                ("optional_items", JVal.arr []), ("already_have", JVal.arr [])])
      required_top_keys = false ∧
    validate_shopping_list
      [("dish", JVal.str "pasta"), ("missing_items", JVal.arr []),
       ("optional_items", JVal.arr []), ("already_have", JVal.arr [])] [] =
      (false, topKeysMsg) ∧
    strContains topKeysMsg "notes" = true := by
  refine ⟨by decide, ?_, ?_⟩
  · exact (C7_top_level_keys
      [("dish", JVal.str "pasta"), ("missing_items", JVal.arr []),
       ("optional_items", JVal.arr []), ("already_have", JVal.arr [])] [] (by decide)).1
  · exact (C7_top_level_keys
      [("dish", JVal.str "pasta"), ("missing_items", JVal.arr []),
       ("optional_items", JVal.arr []), ("already_have", JVal.arr [])] [] (by decide)).2

-- ### C3: the missing-items inventory invariant

theorem validate_item_fst (item : JVal) (p q : String) :
    (validate_item item p).1 = (validate_item item q).1 := by
  cases item <;> simp only [validate_item]
  split_ifs <;> rfl

/-- All schema checks of `validate_shopping_list` other than the
missing-items inventory invariant: exact key set, non-empty `dish`, the
four lists being lists, every entry of `missing_items`/`optional_items`
passing `_validate_item`, and `already_have`/`notes` holding strings. -/
def schema_ok (data : List (String × JVal)) : Bool :=
  keySetEqB (objKeys data) required_top_keys &&
  nonEmptyStr (getField data "dish") &&
  isArr (getField data "missing_items") &&
  isArr (getField data "optional_items") &&
  isArr (getField data "already_have") &&
  isArr (getField data "notes") &&
  (arrItems (getField data "missing_items")).all (fun it => (validate_item it "").1) &&
  (arrItems (getField data "optional_items")).all (fun it => (validate_item it "").1) &&
  (arrItems (getField data "already_have")).all isStr &&
  (arrItems (getField data "notes")).all isStr

theorem isArr_exists {v : JVal} (h : isArr v = true) : ∃ xs, v = JVal.arr xs := by
  cases v <;> first
    | exact ⟨_, rfl⟩
    | simp [isArr] at h

/-- The entries of `missing_items`, when that field is a list. -/
def missing_items_of (data : List (String × JVal)) : List JVal :=
  arrItems (getField data "missing_items")

theorem check_strings_none {xs : List JVal} (h : xs.all isStr = true) (k : String) :
    ∀ n, check_strings k n xs = none := by
  induction xs with
  | nil => intro n; rfl
  | cons a t ih =>
    intro n
    rw [List.all_cons, Bool.and_eq_true] at h
    unfold check_strings
    rw [if_pos h.1]
    exact ih h.2 (n + 1)

theorem check_items_skip_no_offender {k : String} {inv : List String} :
    ∀ {items : List JVal}, (∀ it ∈ items, (validate_item it "").1 = true) →
    (∀ it ∈ items, normalize_ingredient (getNameStr it) ∉ inv) →
    ∀ (checkInv : Bool) (n : Nat), check_items k checkInv inv n items = none := by
  intro items
  induction items with
  | nil => intro _ _ _ n; rfl
  | cons a t ih =>
    intro hall hnone checkInv n
    have ha := hall a (List.mem_cons_self a t)
    rw [validate_item_fst a "" (k ++ "[" ++ toString n ++ "]")] at ha
    unfold check_items
    rcases hv : validate_item a (k ++ "[" ++ toString n ++ "]") with ⟨b, m⟩
    rw [hv] at ha
    cases b with
    | false => exact absurd ha (by simp)
    | true =>
      rw [if_neg (fun hc => hnone a (List.mem_cons_self a t) hc.2)]
      exact ih (fun it hit => hall it (List.mem_cons_of_mem a hit))
        (fun it hit => hnone it (List.mem_cons_of_mem a hit)) checkInv (n + 1)

theorem check_items_no_inv_check {k : String} {inv : List String} :
    ∀ {items : List JVal}, (∀ it ∈ items, (validate_item it "").1 = true) →
    ∀ (n : Nat), check_items k false inv n items = none := by
  intro items
  induction items with
  | nil => intro _ n; rfl
  | cons a t ih =>
    intro hall n
    have ha := hall a (List.mem_cons_self a t)
    rw [validate_item_fst a "" (k ++ "[" ++ toString n ++ "]")] at ha
    unfold check_items
    rcases hv : validate_item a (k ++ "[" ++ toString n ++ "]") with ⟨b, m⟩
    rw [hv] at ha
    cases b with
    | false => exact absurd ha (by simp)
    | true =>
      rw [if_neg (fun hc => by simpa using hc.1)]
      exact ih (fun it hit => hall it (List.mem_cons_of_mem a hit)) (n + 1)

theorem check_items_first_offender {k : String} {inv : List String} :
    ∀ {items : List JVal}, (∀ it ∈ items, (validate_item it "").1 = true) →
    ∀ (n i : Nat), i < items.length →
      normalize_ingredient (getNameStr (items.getD i JVal.null)) ∈ inv →
      (∀ j, j < i →
        normalize_ingredient (getNameStr (items.getD j JVal.null)) ∉ inv) →
      check_items k true inv n items =
        some (inventoryMsg k (n + i) (getNameStr (items.getD i JVal.null))) := by
  intro items
  induction items with
  | nil => intro _ _ i hi; exact absurd hi (by simp)
  | cons a t ih =>
    intro hall n i hi hmem hfirst
    have ha := hall a (List.mem_cons_self a t)
    rw [validate_item_fst a "" (k ++ "[" ++ toString n ++ "]")] at ha
    unfold check_items
    rcases hv : validate_item a (k ++ "[" ++ toString n ++ "]") with ⟨b, m⟩
    rw [hv] at ha
    cases b with
    | false => exact absurd ha (by simp)
    | true =>
      cases i with
      | zero =>
        rw [if_pos ⟨rfl, hmem⟩]
        simp
      | succ j =>
        have hja : normalize_ingredient (getNameStr a) ∉ inv := by
          have := hfirst 0 (by omega)
          simpa using this
        rw [if_neg (fun hc => hja hc.2)]
        have hrec := ih (fun it hit => hall it (List.mem_cons_of_mem a hit))
          (n + 1) j (by simpa using hi) (by simpa using hmem)
          (fun j2 hj2 => by
            have := hfirst (j2 + 1) (by omega)
            simpa using this)
        rw [hrec]
        have : n + 1 + j = n + (j + 1) := by omega
        rw [this]
        simp

/-- C3: for a candidate passing all schema checks, validation fails
because of the inventory invariant exactly when some `missing_items`
entry's normalized name is in the normalized inventory; the error names
the first such entry and instructs relocation to `already_have`, and
entries of `optional_items` never trigger this check. -/
theorem C3_missing_in_inventory (data : List (String × JVal)) (inventory : List String)
    (h : schema_ok data = true) :
    ((∀ item ∈ missing_items_of data,
        normalize_ingredient (getNameStr item) ∉ dedupe_normalized inventory) →
      validate_shopping_list data inventory = (true, "ok")) ∧
    (∀ i, i < (missing_items_of data).length →
      normalize_ingredient (getNameStr ((missing_items_of data).getD i JVal.null)) ∈
        dedupe_normalized inventory →
      (∀ j, j < i → normalize_ingredient
          (getNameStr ((missing_items_of data).getD j JVal.null)) ∉
            dedupe_normalized inventory) →
      validate_shopping_list data inventory =
        (false, inventoryMsg "missing_items" i
          (getNameStr ((missing_items_of data).getD i JVal.null)))) := by
  unfold schema_ok at h
  simp only [Bool.and_eq_true] at h
  obtain ⟨⟨⟨⟨⟨⟨⟨⟨⟨hk, hd⟩, h1⟩, h2⟩, h3⟩, h4⟩, hm1⟩, hm2⟩, hs1⟩, hs2⟩ := h
  obtain ⟨missing, hmiss⟩ := isArr_exists h1
  obtain ⟨optional, hopt⟩ := isArr_exists h2
  obtain ⟨already, halr⟩ := isArr_exists h3
  obtain ⟨notes, hnot⟩ := isArr_exists h4
  have hmof : missing_items_of data = missing := by
    unfold missing_items_of
    rw [hmiss]
    rfl
  have hm1x : ∀ it ∈ missing, (validate_item it "").1 = true := by
    rw [hmiss] at hm1
    simpa [arrItems, List.all_eq_true] using hm1
  have hm2x : ∀ it ∈ optional, (validate_item it "").1 = true := by
    rw [hopt] at hm2
    simpa [arrItems, List.all_eq_true] using hm2
  rw [halr] at hs1
  rw [hnot] at hs2
  simp only [arrItems] at hs1 hs2
  constructor
  · intro hno
    rw [hmof] at hno
    unfold validate_shopping_list
    rw [if_neg (by simp [hk]), if_neg (by simp [hd]), if_neg (by simp [h1]),
        if_neg (by simp [h2]), if_neg (by simp [h3]), if_neg (by simp [h4]),
        hmiss, hopt, halr, hnot]
    simp only [arrItems]
    rw [check_items_skip_no_offender hm1x hno true 0,
        check_items_no_inv_check hm2x 0,
        check_strings_none hs1 "already_have" 0,
        check_strings_none hs2 "notes" 0]
  · intro i hi hmem hfirst
    rw [hmof] at hi hmem hfirst
    unfold validate_shopping_list
    rw [if_neg (by simp [hk]), if_neg (by simp [hd]), if_neg (by simp [h1]),
        if_neg (by simp [h2]), if_neg (by simp [h3]), if_neg (by simp [h4]),
        hmiss, hopt, halr, hnot]
    simp only [arrItems]
    rw [check_items_first_offender hm1x 0 i hi hmem hfirst]
    simp
    rw [hmof]

/-- A concrete schema-valid shopping-list item named `garlic`. -/
def garlicItem : JVal :=
  JVal.obj [("name", JVal.str "garlic"), ("quantity", JVal.num 2),
            ("unit", JVal.str "cloves"), ("category", JVal.str "produce"),
            ("priority", JVal.str "must"), ("substitutions", JVal.arr [])]

/-- A concrete schema-valid candidate whose only missing item is `garlic`. -/
def garlicData : List (String × JVal) :=
  [("dish", JVal.str "stir fry"), ("missing_items", JVal.arr [garlicItem]),
   ("optional_items", JVal.arr []), ("already_have", JVal.arr []),
   ("notes", JVal.arr [])]

/-- C3 witness: with `garlic` in the inventory, the candidate above is
rejected with the relocation message for `missing_items[0]`. -/
theorem C3_witness :
    schema_ok garlicData = true ∧
    validate_shopping_list garlicData ["garlic"] =
      (false, inventoryMsg "missing_items" 0 "garlic") := by
  refine ⟨by decide, ?_⟩
  have h := (C3_missing_in_inventory garlicData ["garlic"] (by decide)).2 0
    (by decide) (by decide) (fun j hj => absurd hj (by omega))
  have e : getNameStr ((missing_items_of garlicData).getD 0 JVal.null) = "garlic" := by decide
  rw [e] at h
  exact h

example : validate_shopping_list garlicData [] = (true, "ok") := by decide

example : validate_shopping_list garlicData ["2 GARLIC "] =
    (false, inventoryMsg "missing_items" 0 "garlic") := by decide

-- ### The ontology resolver (src/yolo_service.py)

/-- `DEFAULT_CLASSES` (src/yolo_service.py lines 29–36), the fallback
vocabulary when the ontology yields no prompts. -/
def DEFAULT_CLASSES : List String :=
  ["egg", "milk", "cheese", "tomato", "onion", "garlic", "carrot", "potato",
   "apple", "banana", "orange", "lemon", "bread", "butter", "chicken", "beef",
   "fish", "rice", "pasta", "flour", "sugar", "salt", "pepper", "oil",
   "yogurt", "lettuce", "cucumber", "bell pepper", "broccoli", "mushroom",
   "bacon", "sausage", "ham", "avocado", "strawberry", "grape", "watermelon",
   "cabbage", "spinach", "celery", "corn", "pea", "bean", "lime", "kiwi"]

/-- `PRIORITY_CANONICALS` (src/yolo_service.py lines 45–48): canonicals
whose aliases are placed at the front of the flattened prompt list. -/
def PRIORITY_CANONICALS : List String :=
  ["carrot", "cabbage", "cucumber", "red_chili_pepper", "cauliflower",
   "broccoli", "bell_pepper", "eggplant", "pea", "blueberry", "tomato", "onion"]

/-- Python `data[canonical]` for the ontology dict (keys are unique). -/
def ontologyLookup (data : List (String × List String)) (k : String) : List String :=
  match data.find? (fun p => p.1 == k) with
  | some p => p.2
  | none => []

/-- The iteration order of `_load_ontology`: priority canonicals present
in the source first, then the remaining source keys in source order. -/
def orderedKeys (data : List (String × List String)) : List String :=
  let keys := data.map Prod.fst
  let part1 := PRIORITY_CANONICALS.filter (fun k => keys.contains k)
  part1 ++ keys.filter (fun k => !(part1.contains k))

/-- The inner alias loop of `_load_ontology`: strip each alias, skip
empties and aliases already recorded, otherwise record alias→canonical
and append the alias to the prompt list. -/
def insertAliases (canonical : String) :
    List String → List (String × String) → List String →
    List (String × String) × List String
  | [], amap, plist => (amap, plist)
  | al :: rest, amap, plist =>
    let a : String := ⟨pyStrip al.data⟩
    if a = "" then insertAliases canonical rest amap plist
    else if (amap.map Prod.fst).contains a then insertAliases canonical rest amap plist
    else insertAliases canonical rest (amap ++ [(a, canonical)]) (plist ++ [a])

def loadOntologyAux (data : List (String × List String)) :
    List String → List (String × String) → List String →
    List (String × String) × List String
  | [], amap, plist => (amap, plist)
  | k :: rest, amap, plist =>
    match insertAliases k (ontologyLookup data k) amap plist with
    | (amap2, plist2) => loadOntologyAux data rest amap2 plist2

/-- Model of `_load_ontology` (src/yolo_service.py lines 51–75) on a
present, well-formed vocabulary source: build alias→canonical and the
flattened prompt list over `orderedKeys`, falling back to
`DEFAULT_CLASSES` when no prompt was produced. -/
def load_ontology (data : List (String × List String)) :
    List (String × String) × List String :=
  match loadOntologyAux data (orderedKeys data) [] [] with
  | (amap, plist) =>
    if plist.isEmpty then (DEFAULT_CLASSES.map (fun c => (c, c)), DEFAULT_CLASSES)
    else (amap, plist)

/-- C6 counterexample: with the source mapping carrot and pea to their
plural aliases, the flattened vocabulary produced by the code begins
with the carrot-derived aliases, not the pea-derived ones — `"carrot"`
precedes `"pea"` inside the fixed `PRIORITY_CANONICALS` list, and both
are priority canonicals. -/
theorem C6_counterexample :
    (load_ontology [("carrot", ["carrot", "carrots"]), ("pea", ["pea", "peas"])]).2.take 2 ≠
      ["pea", "peas"] := by decide

/-- C6 amended: given that vocabulary source, the flattened vocabulary
is the carrot-derived aliases followed by the pea-derived aliases
(carrot precedes pea in `PRIORITY_CANONICALS`), with the alias map
recording each alias under its own canonical. -/
theorem C6_amended_order :
    load_ontology [("carrot", ["carrot", "carrots"]), ("pea", ["pea", "peas"])] =
      ([("carrot", "carrot"), ("carrots", "carrot"), ("pea", "pea"), ("peas", "pea")],
       ["carrot", "carrots", "pea", "peas"]) := by decide

-- ### The missing-ingredient matcher (spec §4.5)

/-- Modelled from the spec: the fixed pantry-staple set of the
Missing-Ingredient Matcher (§4.5).  The matcher itself
(`findMissing`) is not present under src/ of this repository. -/
def PANTRY_STAPLES : List String :=
  ["salt", "pepper", "black pepper", "white pepper", "oil", "olive oil",
   "vegetable oil", "sugar", "flour", "butter", "water", "garlic", "onion",
   "soy sauce", "vinegar", "baking soda", "baking powder"]

/-- Modelled from the spec: satisfaction test of the Missing-Ingredient
Matcher (§4.5) — a required item is satisfied when its normalized form
contains a pantry staple as a substring, or it and some (normalized)
inventory entry contain one another as substrings. -/
def satisfiedBy (inventory : List String) (r : String) : Bool :=
  PANTRY_STAPLES.any (fun p => strContains (normalize_ingredient r) p) ||
  inventory.any (fun v =>
    strContains (normalize_ingredient r) (normalize_ingredient v) ||
    strContains (normalize_ingredient v) (normalize_ingredient r))

/-- Modelled from the spec: `findMissing(required, inventory)` (§4.5) —
the original required-item strings not satisfied, in order.  The
function is absent from src/; this definition follows the spec's words. -/
def findMissing (required inventory : List String) : List String :=
  required.filter (fun r => !(satisfiedBy inventory r))

/-- C4: `findMissing` keeps exactly the required items that are neither
pantry-staple-covered nor in bidirectional substring containment with
some inventory entry; `["garlic"]` against `["garlic cloves"]` yields no
missing item, while `["scallion"]` against `["green onion"]` stays
missing. -/
theorem C4_findMissing_matcher :
    (∀ (required inventory : List String) (r : String),
      r ∈ findMissing required inventory ↔
        r ∈ required ∧
        ¬ ((∃ p ∈ PANTRY_STAPLES, strContains (normalize_ingredient r) p = true) ∨
           (∃ v ∈ inventory,
             strContains (normalize_ingredient r) (normalize_ingredient v) = true ∨
             strContains (normalize_ingredient v) (normalize_ingredient r) = true))) ∧
    findMissing ["garlic"] ["garlic cloves"] = [] ∧
    findMissing ["scallion"] ["green onion"] = ["scallion"] := by
  refine ⟨?_, by decide, by decide⟩
  intro required inventory r
  rw [findMissing, List.mem_filter]
  simp [satisfiedBy, List.any_eq_true]

-- ### Recipe ingredient extraction (src/core/recipe.py lines 111–141)

def HEADER : List Char := "### Ingredients".data

/-- Index of the last newline of a character list, when one exists. -/
def lastNlIdx : List Char → Option Nat
  | [] => none
  | c :: t =>
    match lastNlIdx t with
    | some k => some (k + 1)
    | none => if c = '\n' then some 0 else none

/-- The `\s*\n` tail of the section-header pattern: consume the leading
whitespace run up to and including its last newline (the greedy `\s*`
backtracks until the mandatory `\n` matches); fail when the run holds
no newline. -/
def afterHeaderWs (l : List Char) : Option (List Char) :=
  match lastNlIdx (l.takeWhile isSpace) with
  | some k => some (l.drop (k + 1))
  | none => none

/-- The scan of `re.search(r'### Ingredients\s*\n...')`: try each
position left to right; where the literal matches but `\s*\n` does not,
resume scanning at the next position. -/
def searchHeader : List Char → Option (List Char)
  | [] => none
  | c :: t =>
    if HEADER.isPrefixOf (c :: t) then
      match afterHeaderWs ((c :: t).drop HEADER.length) with
      | some rest => some rest
      | none => searchHeader t
    else searchHeader t

/-- Index of the first occurrence of `pat` in the list. -/
def findOcc (pat : List Char) : List Char → Option Nat
  | [] => if pat.isPrefixOf [] then some 0 else none
  | c :: t => if pat.isPrefixOf (c :: t) then some 0 else (findOcc pat t).map (· + 1)

/-- The lazy group `(.*?)(?=###|\Z)` with DOTALL: everything up to the
first following `###`, or to the end of the text. -/
def sectionBody (rest : List Char) : List Char :=
  match findOcc "###".data rest with
  | some i => rest.take i
  | none => rest

/-- Worker for `splitLines`; `acc` holds the current line reversed. -/
def slAux : List Char → List Char → List (List Char)
  | acc, [] => [acc.reverse]
  | acc, '\r' :: '\n' :: t =>
    acc.reverse :: (match t with | [] => [] | _ :: _ => slAux [] t)
  | acc, '\n' :: t =>
    acc.reverse :: (match t with | [] => [] | _ :: _ => slAux [] t)
  | acc, '\r' :: t =>
    acc.reverse :: (match t with | [] => [] | _ :: _ => slAux [] t)
  | acc, c :: t => slAux (c :: acc) t

/-- Python `str.splitlines()` on the `\n` / `\r\n` / `\r` line endings:
no trailing empty line after a final terminator, and `[]` on the empty
string. -/
def splitLines (l : List Char) : List (List Char) :=
  match l with
  | [] => []
  | _ :: _ => slAux [] l

/-- The character set of `lstrip('-•* \t')`. -/
def isLstripChar (c : Char) : Bool :=
  c = '-' || c = '•' || c = '*' || c = ' ' || c = '\t'

/-- The regex class `[\d/\-\.]`. -/
def isQtyChar (c : Char) : Bool := c.isDigit || c = '/' || c = '-' || c = '.'

/-- Model of `re.sub(r'^\d[\d/\-\.]*\s*', '', line)`: when the line
starts with a digit, drop it, the following run of quantity characters,
and the following whitespace run. -/
def stripQty : List Char → List Char
  | [] => []
  | c :: t => if c.isDigit then (t.dropWhile isQtyChar).dropWhile isSpace else c :: t

/-- The regex word class `\w` (ASCII fragment), used for `\b`. -/
def isWordChar (c : Char) : Bool :=
  c.isDigit || (65 ≤ c.toNat && c.toNat ≤ 90) || (97 ≤ c.toNat && c.toNat ≤ 122) || c = '_'

/-- Case-insensitive prefix test (regex `re.IGNORECASE` on literals). -/
def ciStartsWith : List Char → List Char → Bool
  | [], _ => true
  | _ :: _, [] => false
  | p :: ps, c :: cs => if pyToLower p = pyToLower c then ciStartsWith ps cs else false

/-- The alternatives of the unit alternation
`(cups?|tablespoons?|tbsps?|teaspoons?|tsps?|grams?|g|kg|ml|oz|lbs?|cloves?|slices?|pieces?|pinch|handful|bunch)`
expanded in the regex engine's backtracking order: alternation order,
with the greedy `s?` trying the plural before the singular. -/
def UNIT_VARIANTS : List String :=
  ["cups", "cup", "tablespoons", "tablespoon", "tbsps", "tbsp", "teaspoons",
   "teaspoon", "tsps", "tsp", "grams", "gram", "g", "kg", "ml", "oz", "lbs",
   "lb", "cloves", "clove", "slices", "slice", "pieces", "piece", "pinch",
   "handful", "bunch"]

/-- The optional `(of\s+)?` group after a unit word: its consumed length
(zero when `of` or its mandatory whitespace is absent). -/
def tryOf (l : List Char) : Nat :=
  if ciStartsWith "of".data l then
    if ((l.drop 2).takeWhile isSpace).length = 0 then 0
    else 2 + ((l.drop 2).takeWhile isSpace).length
  else 0

/-- One alternation variant followed by the mandatory `\s+` and the
optional `of\s+`: the total consumed length on success. -/
def tryVariant (word : List Char) (l : List Char) : Option Nat :=
  if ciStartsWith word l then
    if ((l.drop word.length).takeWhile isSpace).length = 0 then none
    else
      some (word.length + ((l.drop word.length).takeWhile isSpace).length +
        tryOf ((l.drop word.length).drop ((l.drop word.length).takeWhile isSpace).length))
  else none

def tryUnitAux : List String → List Char → Option Nat
  | [], _ => none
  | v :: vs, l =>
    match tryVariant v.data l with
    | some n => some n
    | none => tryUnitAux vs l

/-- A unit-pattern match at the current position (which the caller has
checked to be a `\b` boundary): consumed length on success. -/
def tryUnit (l : List Char) : Option Nat := tryUnitAux UNIT_VARIANTS l

/-- Worker for `subUnits`.  `prevWord` records whether the character
before the current position is a word character (for `\b`); the fuel
only bounds the scan — every step consumes at least one character, so
`length + 1` fuel always suffices, and a removed unit token (always at
least two characters) leaves the scan at the character after the match
with non-word boundary state (the match ends in whitespace). -/
def subUnitsFuel : Nat → Bool → List Char → List Char
  | 0, _, l => l
  | _ + 1, _, [] => []
  | fuel + 1, prevWord, c :: t =>
    if prevWord = false then
      match tryUnit (c :: t) with
      | some n => subUnitsFuel fuel false (t.drop (n - 1))
      | none => c :: subUnitsFuel fuel (isWordChar c) t
    else c :: subUnitsFuel fuel (isWordChar c) t

/-- Model of the unit-stripping
`re.sub(r'\b(units...)\s+(of\s+)?', '', line, flags=re.IGNORECASE)`. -/
def subUnits (l : List Char) : List Char := subUnitsFuel (l.length + 1) false l

/-- The qualifier phrases of the trailing-qualifier regex. -/
def QUAL_PHRASES : List String :=
  ["to taste", "optional", "as needed", "to serve", "for serving", "for garnish"]

/-- A match of `,?\s*(to taste|optional|as needed|...)` at the current
position (the greedy `\s*` must reach the phrase, which starts with a
letter, so it always consumes the whole whitespace run). -/
def qualMatch (l : List Char) : Bool :=
  QUAL_PHRASES.any (fun p =>
    ciStartsWith p.data ((match l with | ',' :: t => t | _ => l).dropWhile isSpace))

/-- Model of
`re.sub(r',?\s*(to taste|optional|as needed|to serve|for serving|for garnish).*$', '', line, flags=re.IGNORECASE)`:
cut the line at the first position where the qualifier pattern matches
(`.*$` swallows the rest of the line). -/
def subQual : List Char → List Char
  | [] => []
  | c :: t => if qualMatch (c :: t) then [] else c :: subQual t

/-- One line of the `### Ingredients` section, as the loop body of
`extract_recipe_ingredients` processes it: strip + lstrip bullet
characters, drop empty lines, strip the leading quantity, strip unit
words, cut trailing qualifiers, then strip + lowercase, dropping lines
that end up empty. -/
def processLine (line : List Char) : Option String :=
  if ((pyStrip line).dropWhile isLstripChar).isEmpty then none
  else
    if (pyLower (pyStrip (subQual (subUnits
          (stripQty ((pyStrip line).dropWhile isLstripChar)))))).isEmpty then none
    else some ⟨pyLower (pyStrip (subQual (subUnits
          (stripQty ((pyStrip line).dropWhile isLstripChar)))))⟩

/-- Model of `extract_recipe_ingredients` (src/core/recipe.py
lines 111–141). -/
def extract_recipe_ingredients (text : String) : List String :=
  match searchHeader text.data with
  | none => []
  | some rest => (splitLines (pyStrip (sectionBody rest))).filterMap processLine

theorem searchHeader_contains : ∀ {l : List Char} {r : List Char},
    searchHeader l = some r → containsSub HEADER l = true := by
  intro l
  induction l with
  | nil => intro r h; simp [searchHeader] at h
  | cons c t ih =>
    intro r h
    unfold searchHeader at h
    unfold containsSub
    by_cases hp : HEADER.isPrefixOf (c :: t) = true
    · rw [if_pos hp]
    · rw [if_neg hp]
      rw [if_neg hp] at h
      exact ih h

/-- C8: on a recipe whose `### Ingredients` section lists
`- 2 cups flour`, `- salt, to taste`, `- 1 egg`, the extractor returns
exactly `["flour", "salt", "egg"]`; and on any text not containing
`### Ingredients` at all it returns the empty list. -/
theorem C8_extract_ingredients :
    extract_recipe_ingredients
      "## Pancakes\n**Time:** 20 minutes\n### Ingredients\n- 2 cups flour\n- salt, to taste\n- 1 egg\n### Steps\n1. mix" =
      ["flour", "salt", "egg"] ∧
    (∀ t : String, containsSub HEADER t.data = false →
      extract_recipe_ingredients t = []) := by
  refine ⟨by decide, ?_⟩
  intro t hnc
  unfold extract_recipe_ingredients
  cases hs : searchHeader t.data with
  | none => rfl
  | some rest =>
    rw [searchHeader_contains hs] at hnc
    simp at hnc

/-- C8 witness: a text with no `### Ingredients` section yields `[]`. -/
theorem C8_witness :
    containsSub HEADER "just a chat about dinner".data = false ∧
    extract_recipe_ingredients "just a chat about dinner" = [] :=
  ⟨by decide, (C8_extract_ingredients).2 "just a chat about dinner" (by decide)⟩

-- ### Strict JSON parsing and the correction-retry controller
-- (src/core/shopping_list.py lines 92–153 and 193–220)

def pyStripS (s : String) : String := ⟨pyStrip s.data⟩

def firstIdxOf (c0 : Char) : List Char → Option Nat
  | [] => none
  | c :: t => if c = c0 then some 0 else (firstIdxOf c0 t).map (· + 1)

def lastIdxOf (c0 : Char) : List Char → Option Nat
  | [] => none
  | c :: t =>
    match lastIdxOf c0 t with
    | some k => some (k + 1)
    | none => if c = c0 then some 0 else none

/-- Model of `_parse_strict_json` (src/core/shopping_list.py
lines 193–220), parameterized by the abstract parser `loads` standing
for `json.loads` (an error result models `json.JSONDecodeError`).
Empty input fails; a direct parse yielding a non-object raises the
object error (a plain `ValueError`, not caught by the
`except json.JSONDecodeError` around the direct parse); on a decode
error the first `{` … last `}` slice is stripped and re-parsed, whose
errors propagate; without such a slice the brace error is raised.
Returns the object's fields. -/
def parse_strict (loads : String → Except String JVal) (text : String) :
    Except String (List (String × JVal)) :=
  if text = "" then Except.error "Empty model output; expected JSON"
  else
    match loads text with
    | Except.ok (JVal.obj fields) => Except.ok fields
    | Except.ok _ => Except.error "Top-level JSON must be an object"
    | Except.error _ =>
      match firstIdxOf '{' text.data, lastIdxOf '}' text.data with
      | some s, some e =>
        if e ≤ s then Except.error "Model output is not JSON (no object braces found)"
        else
          match loads ⟨pyStrip ((text.data.drop s).take (e + 1 - s))⟩ with
          | Except.ok (JVal.obj fields) => Except.ok fields
          | Except.ok _ => Except.error "Top-level JSON must be an object"
          | Except.error m => Except.error m
      | _, _ => Except.error "Model output is not JSON (no object braces found)"

/-- Model of `generate_shopping_list_json` (src/core/shopping_list.py
lines 92–153).  The external generation call `chat_text_only` is a
call-indexed oracle `backend` (call 0 = first generation, call 1 = the
corrective regeneration) and `json.loads` the abstract parameter
`loads`: the claims about the controller depend only on its control
flow, not on the prompt text — prompt construction and the optional
history folding only shape the strings sent to the backend.  Returns
the result together with the number of generation calls made. -/
def generate_shopping_list_json (loads : String → Except String JVal)
    (backend : Nat → String) (user_message : String) (inventory : List String) :
    Except String (List (String × JVal)) × Nat :=
  if user_message = "" ∨ pyStripS user_message = "" then
    (Except.error "user_message cannot be empty", 0)
  else
    match parse_strict loads (pyStripS (backend 0)) with
    | Except.error e => (Except.error e, 1)
    | Except.ok data0 =>
      match validate_shopping_list data0 inventory with
      | (true, _) => (Except.ok data0, 1)
      | (false, _) =>
        match parse_strict loads (pyStripS (backend 1)) with
        | Except.error e => (Except.error e, 2)
        | Except.ok data1 =>
          match validate_shopping_list data1 inventory with
          | (true, _) => (Except.ok data1, 2)
          | (false, msg2) =>
            (Except.error ("Invalid shopping list JSON after retry: " ++ msg2), 2)

def jsonWs (c : Char) : Bool := c = ' ' || c = '\t' || c = '\n' || c = '\r'

def skipWs (l : List Char) : List Char := l.dropWhile jsonWs

def parseStrAux : List Char → List Char → Option (String × List Char)
  | _, [] => none
  | acc, '"' :: t => some (⟨acc.reverse⟩, t)
  | _, '\\' :: _ => none
  | acc, c :: t => parseStrAux (c :: acc) t

def digitsVal (l : List Char) : Nat := l.foldl (fun acc c => acc * 10 + (c.toNat - 48)) 0

/-- Honest subset of `json.loads`, used only to instantiate the
abstract parser parameter at the concrete inputs of the witnesses and
counterexamples below: optional whitespace, then one of `{}`, `[]`,
`null`, `true`, `false`, an integer, or an escape-free string literal,
then optional whitespace; everything else is a decode error, exactly as
`json.loads` raises on those same inputs. -/
def loadsMin (s : String) : Except String JVal :=
  match (match skipWs s.data with
    | '{' :: t => (match skipWs t with
        | '}' :: r => some (JVal.obj [], r)
        | _ => none)
    | '[' :: t => (match skipWs t with
        | ']' :: r => some (JVal.arr [], r)
        | _ => none)
    | 'n' :: 'u' :: 'l' :: 'l' :: r => some (JVal.null, r)
    | 't' :: 'r' :: 'u' :: 'e' :: r => some (JVal.bool true, r)
    | 'f' :: 'a' :: 'l' :: 's' :: 'e' :: r => some (JVal.bool false, r)
    | '"' :: t => (parseStrAux [] t).map (fun p => (JVal.str p.1, p.2))
    | '-' :: t =>
      if (t.takeWhile Char.isDigit).isEmpty then none
      else some (JVal.num (-(digitsVal (t.takeWhile Char.isDigit) : Int)),
        t.dropWhile Char.isDigit)
    | c :: t =>
      if c.isDigit then
        some (JVal.num (digitsVal ((c :: t).takeWhile Char.isDigit)),
          (c :: t).dropWhile Char.isDigit)
      else none
    | [] => none) with
  | some (v, r) => if (skipWs r).isEmpty then Except.ok v else Except.error "Extra data"
  | none => Except.error "Expecting value"

/-- C1 counterexample: when the first generation returns `"oops"` — not
parseable JSON and holding no braces — the controller surfaces the
parse error to the caller as a terminal failure after a single
generation call; no corrective regeneration is issued. -/
theorem C1_counterexample :
    generate_shopping_list_json loadsMin (fun _ => "oops") "pasta" [] =
      (Except.error "Model output is not JSON (no object braces found)", 1) := rfl

/-- C1 amended: a parse failure of the first attempt is raised to the
caller immediately with no corrective regeneration; only a first-attempt
validation failure of successfully parsed output triggers the single
corrective retry. -/
theorem C1_first_parse_error_is_terminal (loads : String → Except String JVal)
    (backend : Nat → String) (user_message : String) (inventory : List String)
    (e : String) (hu : pyStripS user_message ≠ "")
    (hp : parse_strict loads (pyStripS (backend 0)) = Except.error e) :
    generate_shopping_list_json loads backend user_message inventory =
      (Except.error e, 1) := by
  unfold generate_shopping_list_json
  rw [if_neg ?hc, hp]
  case hc =>
    intro hor
    rcases hor with h0 | h1
    · exact hu (by rw [h0]; rfl)
    · exact hu h1

/-- C1 witness for the amended statement, at the counterexample's input. -/
theorem C1_witness :
    pyStripS "pasta" ≠ "" ∧
    parse_strict loadsMin (pyStripS ((fun _ => "oops") 0)) =
      Except.error "Model output is not JSON (no object braces found)" ∧
    generate_shopping_list_json loadsMin (fun _ => "oops") "pasta" [] =
      (Except.error "Model output is not JSON (no object braces found)", 1) :=
  ⟨by decide, rfl,
   C1_first_parse_error_is_terminal loadsMin (fun _ => "oops") "pasta" [] _ (by decide) rfl⟩

/-- C2: when the first attempt parses but fails validation, exactly one
corrective generation call is made — two calls total, never a third —
and the outcome is decided by the second attempt alone: a parse error
of the second attempt propagates, a valid second attempt is returned as
the result, and a second validation failure raises the terminal error
carrying the final validation message. -/
theorem C2_single_corrective_retry (loads : String → Except String JVal)
    (backend : Nat → String) (user_message : String) (inventory : List String)
    (d1 : List (String × JVal)) (m1 : String)
    (hu : pyStripS user_message ≠ "")
    (hp1 : parse_strict loads (pyStripS (backend 0)) = Except.ok d1)
    (hv1 : validate_shopping_list d1 inventory = (false, m1)) :
    (generate_shopping_list_json loads backend user_message inventory).2 = 2 ∧
    (∀ e, parse_strict loads (pyStripS (backend 1)) = Except.error e →
      (generate_shopping_list_json loads backend user_message inventory).1 =
        Except.error e) ∧
    (∀ d2, parse_strict loads (pyStripS (backend 1)) = Except.ok d2 →
      ((validate_shopping_list d2 inventory).1 = true →
        (generate_shopping_list_json loads backend user_message inventory).1 =
          Except.ok d2) ∧
      (∀ m2, validate_shopping_list d2 inventory = (false, m2) →
        (generate_shopping_list_json loads backend user_message inventory).1 =
          Except.error ("Invalid shopping list JSON after retry: " ++ m2))) := by
  have hc : ¬ (user_message = "" ∨ pyStripS user_message = "") := by
    intro hor
    rcases hor with h0 | h1
    · exact hu (by rw [h0]; rfl)
    · exact hu h1
  refine ⟨?_, ?_, ?_⟩
  · unfold generate_shopping_list_json
    rw [if_neg hc]
    simp only [hp1, hv1]
    cases hp2 : parse_strict loads (pyStripS (backend 1)) with
    | error e => simp [hp2]
    | ok d2 =>
      rcases hv2 : validate_shopping_list d2 inventory with ⟨b2, m2⟩
      cases b2 <;> simp [hp2, hv2]
  · intro e he
    unfold generate_shopping_list_json
    rw [if_neg hc]
    simp only [hp1, hv1, he]
  · intro d2 hd2
    constructor
    · intro hv2t
      rcases hv2 : validate_shopping_list d2 inventory with ⟨b2, m2⟩
      rw [hv2] at hv2t
      simp at hv2t
      subst hv2t
      unfold generate_shopping_list_json
      rw [if_neg hc]
      simp only [hp1, hv1, hd2, hv2]
    · intro m2 hv2
      unfold generate_shopping_list_json
      rw [if_neg hc]
      simp only [hp1, hv1, hd2, hv2]

/-- C2 witness: first generation `"{}"` parses to an empty object that
fails validation (key-set mismatch); the controller makes exactly two
generation calls; the second attempt `"{}"` fails validation again and
the terminal error carries the final validation message. -/
theorem C2_witness :
    pyStripS "pasta" ≠ "" ∧
    parse_strict loadsMin (pyStripS ((fun _ => "{}") 0)) = Except.ok [] ∧
    validate_shopping_list [] [] = (false, topKeysMsg) ∧
    (generate_shopping_list_json loadsMin (fun _ => "{}") "pasta" []).2 = 2 ∧
    (generate_shopping_list_json loadsMin (fun _ => "{}") "pasta" []).1 =
      Except.error ("Invalid shopping list JSON after retry: " ++ topKeysMsg) := by
  refine ⟨by decide, rfl, by decide, ?_, ?_⟩
  · exact (C2_single_corrective_retry loadsMin (fun _ => "{}") "pasta" [] [] topKeysMsg
      (by decide) rfl (by decide)).1
  · exact (((C2_single_corrective_retry loadsMin (fun _ => "{}") "pasta" [] [] topKeysMsg
      (by decide) rfl (by decide)).2.2 [] rfl).2 topKeysMsg (by decide))
